import Mathlib

/-!
Verification of the core behavioural contracts of the database QA automation
suite.

Part 1 embeds `framework/db_utils.py` (`DBUtils`): the safe query wrapper over
a `DatabaseManager`-style executor whose `execute_query` either raises, or
returns `None` (no result set) or a list of row tuples.

Part 2 embeds the vault encryption helpers `_encrypt_data` / `_decrypt_data`
from `tests/sql/test_vault.py`: hex-encoding wrappers around an authenticated
encryption primitive (AES-256-GCM from the external `cryptography` package,
modelled abstractly from the spec collaborator contract) together with a
faithful model of Python `bytes.hex()` / `bytes.fromhex` and of the UTF-8
codec used by `str.encode()` / `bytes.decode()`.
-/

/-! ## Part 1: the safe query wrapper (`framework/db_utils.py`) -/

/-- The executor collaborator (`DatabaseManager.execute_query`): for a query
string and optional parameter tuple it either raises an exception of type `ε`
(`Except.error`), or returns `none` (Python `None`: no result set, e.g. a
non-SELECT statement) or `some rows` where each row is a tuple of scalars of
type `α`. -/
structure DatabaseManager (ε α : Type) where
  execute_query : String → Option (List α) → Except ε (Option (List (List α)))

/-- Python exceptions observable from the `DBUtils` methods: `ValueError msg`
(the NotFound condition raised by `fetch_one_or_raise`), `indexError`
(out-of-range column access in `fetch_value_or_raise`), and `execError e`
(an exception propagated from the underlying executor). -/
inductive PyError (ε : Type) where
  | valueError (msg : String)
  | indexError
  | execError (e : ε)
deriving DecidableEq

/-- Python `a or b` for an optional string `a`: both `None` and the empty
string are falsy, so they select `b`. -/
def pyOrStr (a : Option String) (b : String) : String :=
  match a with
  | none => b
  | some s => if s = "" then b else s

/-- Python `result or []` for `result : Optional[List]`: `None` and the empty
list are falsy. -/
def pyOrEmpty (result : Option (List β)) : List β :=
  match result with
  | none => []
  | some l => if l.isEmpty then [] else l

/-- Python list indexing `l[i]` with an `int` index: a nonnegative index `i`
is valid when `i < len(l)`; a negative index `i` addresses `l[len(l) + i]`
and is valid when `-len(l) <= i`. Out of range yields `none` (IndexError). -/
def pyIndex (l : List α) (i : Int) : Option α :=
  if 0 ≤ i then l.get? i.toNat
  else if -i ≤ (l.length : Int) then l.get? (l.length - (-i).toNat)
  else none

/-- Embeds `DBUtils.fetch_one_or_raise`: runs the executor; if the result is
falsy (`None` or `[]`) raises `ValueError(error_msg or default)` where the
default message is `"No rows returned for query: " ++ query`; otherwise
returns the first row `result[0]`. An executor exception propagates. -/
def DBUtils.fetch_one_or_raise (db : DatabaseManager ε α) (query : String)
    (params : Option (List α)) (error_msg : Option String) :
    Except (PyError ε) (List α) :=
  match db.execute_query query params with
  | .error e => .error (.execError e)
  | .ok none =>
      .error (.valueError (pyOrStr error_msg ("No rows returned for query: " ++ query)))
  | .ok (some []) =>
      .error (.valueError (pyOrStr error_msg ("No rows returned for query: " ++ query)))
  | .ok (some (row :: _)) => .ok row

/-- Embeds `DBUtils.fetch_value_or_raise`: delegates to `fetch_one_or_raise`
and then extracts `row[column]` with Python indexing semantics; an invalid
column index raises IndexError, which propagates unmasked. -/
def DBUtils.fetch_value_or_raise (db : DatabaseManager ε α) (query : String)
    (params : Option (List α)) (column : Int) (error_msg : Option String) :
    Except (PyError ε) α :=
  match DBUtils.fetch_one_or_raise db query params error_msg with
  | .error e => .error e
  | .ok row =>
      match pyIndex row column with
      | some v => .ok v
      | none => .error .indexError

/-- Embeds `DBUtils.fetch_all_safe`: runs the executor and returns
`result or []`; an executor exception propagates (the method has no
try/except). -/
def DBUtils.fetch_all_safe (db : DatabaseManager ε α) (query : String)
    (params : Option (List α)) : Except ε (List (List α)) :=
  match db.execute_query query params with
  | .error e => .error e
  | .ok result => .ok (pyOrEmpty result)

/-- Embeds `DBUtils.safe_execute`: runs the executor inside try/except;
returns `true` on success and `false` on any exception, never re-raising. -/
def DBUtils.safe_execute (db : DatabaseManager ε α) (query : String)
    (params : Option (List α)) : Bool :=
  match db.execute_query query params with
  | .ok _ => true
  | .error _ => false

/-! Concrete executors used to witness the wrapper theorems. -/

/-- Executor returning an empty result set (SELECT matching zero rows). -/
def dbEmpty : DatabaseManager Unit Nat := ⟨fun _ _ => .ok (some [])⟩

/-- Executor returning an absent result set (non-SELECT statement). -/
def dbAbsent : DatabaseManager Unit Nat := ⟨fun _ _ => .ok none⟩

/-- Executor returning two rows. -/
def dbRows : DatabaseManager Unit Nat := ⟨fun _ _ => .ok (some [[10, 20], [30]])⟩

/-- Executor that raises on every call. -/
def dbBoom : DatabaseManager Unit Nat := ⟨fun _ _ => .error ()⟩

/-! ## Part 2: hex codec (Python `bytes.hex()` / `bytes.fromhex`) -/

/-- Lowercase hex digit for a value below 16, as produced by `bytes.hex()`. -/
def hexDigitChar (n : Nat) : Char :=
  Char.ofNat (if n < 10 then 48 + n else 87 + n)

/-- The two hex digits of one byte. -/
def byteToHex (b : Nat) : List Char :=
  [hexDigitChar (b / 16), hexDigitChar (b % 16)]

/-- Embeds Python `bytes.hex()`: two lowercase hex digits per byte. -/
def bytesToHex (bs : List Nat) : String :=
  ⟨bs.flatMap byteToHex⟩

/-- Value of a hex digit character (Python accepts both cases). -/
def hexDigitVal (c : Char) : Option Nat :=
  if 48 ≤ c.toNat ∧ c.toNat ≤ 57 then some (c.toNat - 48)
  else if 97 ≤ c.toNat ∧ c.toNat ≤ 102 then some (c.toNat - 87)
  else if 65 ≤ c.toNat ∧ c.toNat ≤ 70 then some (c.toNat - 55)
  else none

/-- Parse a whitespace-free hex string two digits at a time. -/
def hexPairs : List Char → Option (List Nat)
  | [] => some []
  | [_] => none
  | c1 :: c2 :: rest =>
    match hexDigitVal c1, hexDigitVal c2, hexPairs rest with
    | some hi, some lo, some bs => some ((16 * hi + lo) :: bs)
    | _, _, _ => none

/-- Embeds Python `bytes.fromhex` on whitespace-free input (the only inputs
produced by `bytes.hex()`): `none` models the ValueError raised on malformed
input. -/
def hexToBytes (s : String) : Option (List Nat) :=
  hexPairs s.toList

/-! ## Part 2: UTF-8 codec (Python `str.encode()` / `bytes.decode()`) -/

/-- UTF-8 encoding of a single Unicode scalar value. -/
def utf8EncodeChar (c : Char) : List Nat :=
  let n := c.toNat
  if n < 128 then [n]
  else if n < 2048 then [192 + n / 64, 128 + n % 64]
  else if n < 65536 then [224 + n / 4096, 128 + n / 64 % 64, 128 + n % 64]
  else [240 + n / 262144, 128 + n / 4096 % 64, 128 + n / 64 % 64, 128 + n % 64]

/-- Embeds Python `str.encode()`: UTF-8 bytes of the string. -/
def utf8Encode (s : String) : List Nat :=
  s.toList.flatMap utf8EncodeChar

/-- Incremental strict UTF-8 decoder, as Python `bytes.decode()`: the state
is `none` between scalars and `some (need, v, m)` inside a multi-byte
sequence (`need` continuation bytes still expected, `v` the partial code
point, `m` the smallest code point the sequence may legally produce). It
rejects truncated sequences, stray continuation bytes, overlong encodings
(lead bytes 192-193 and the `m` check), surrogate code points and code
points above U+10FFFF, exactly the inputs `bytes.decode()` rejects. -/
def utf8Run : Option (Nat × Nat × Nat) → List Nat → Option (List Char)
  | none, [] => some []
  | some _, [] => none
  | none, b :: rest =>
    if b < 128 then (utf8Run none rest).map (fun cs => Char.ofNat b :: cs)
    else if 194 ≤ b ∧ b < 224 then utf8Run (some (1, b - 192, 128)) rest
    else if 224 ≤ b ∧ b < 240 then utf8Run (some (2, b - 224, 2048)) rest
    else if 240 ≤ b ∧ b < 245 then utf8Run (some (3, b - 240, 65536)) rest
    else none
  | some (need, v, m), b :: rest =>
    if 128 ≤ b ∧ b < 192 then
      if need = 1 then
        if m ≤ v * 64 + (b - 128) ∧
            (v * 64 + (b - 128) < 55296 ∨
              (57344 ≤ v * 64 + (b - 128) ∧ v * 64 + (b - 128) < 1114112)) then
          (utf8Run none rest).map (fun cs => Char.ofNat (v * 64 + (b - 128)) :: cs)
        else none
      else utf8Run (some (need - 1, v * 64 + (b - 128), m)) rest
    else none

/-- Strict UTF-8 decoding of a byte string to a scalar-value list. -/
def utf8DecodeList (bs : List Nat) : Option (List Char) :=
  utf8Run none bs

/-- Embeds Python `bytes.decode()`: `none` models UnicodeDecodeError. -/
def utf8Decode (bs : List Nat) : Option String :=
  (utf8DecodeList bs).map (fun cs => ⟨cs⟩)

/-! ## Part 2: the authenticated-encryption wrapper (`tests/sql/test_vault.py`) -/

/-- Modelled from the spec: the external authenticated-encryption collaborator
(AES-256-GCM via the `cryptography` package, not part of this repository).
Per the spec's collaborator contract it is a pair
`seal(key, nonce, plaintext) -> ciphertextWithTag` /
`open(key, nonce, ciphertextWithTag) -> plaintext | AuthenticationFailure`,
with no associated data; `dec` (the spec's `open`) returning `none` models
the `AuthenticationFailure` outcome. Keys, nonces and byte strings are lists
of byte values. -/
structure AEAD where
  enc : List Nat → List Nat → List Nat → List Nat
  dec : List Nat → List Nat → List Nat → Option (List Nat)

/-- Python exceptions observable from `_decrypt_data`: `invalidHex` from
`bytes.fromhex`, `authenticationFailure` from the AEAD primitive
(`InvalidTag`), `unicodeDecodeError` from `bytes.decode()`. -/
inductive VaultError where
  | invalidHex
  | authenticationFailure
  | unicodeDecodeError
deriving DecidableEq

/-- Embeds `_encrypt_data` from `tests/sql/test_vault.py`: encrypts the UTF-8
bytes of the plaintext under the instance key with a fresh 12-byte nonce
(`os.urandom(12)`, passed here explicitly) and no associated data, and
returns `(ciphertext.hex(), nonce.hex())`. -/
def encryptData (A : AEAD) (key nonce : List Nat) (plaintext : String) :
    String × String :=
  (bytesToHex (A.enc key nonce (utf8Encode plaintext)), bytesToHex nonce)

/-- Embeds `_decrypt_data` from `tests/sql/test_vault.py`: hex-decodes the
ciphertext and nonce, opens with the instance key, and UTF-8-decodes the
resulting plaintext bytes; every failure propagates (the helper has no
try/except). -/
def decryptData (A : AEAD) (key : List Nat) (encryptedHex nonceHex : String) :
    Except VaultError String :=
  match hexToBytes encryptedHex with
  | none => .error .invalidHex
  | some ciphertext =>
    match hexToBytes nonceHex with
    | none => .error .invalidHex
    | some nonce =>
      match A.dec key nonce ciphertext with
      | none => .error .authenticationFailure
      | some ptBytes =>
        match utf8Decode ptBytes with
        | none => .error .unicodeDecodeError
        | some s => .ok s

/-- Flip bit `j` (0-based, `j < 8`) of byte `i` of a byte string. -/
def flipBit (bs : List Nat) (i j : Nat) : List Nat :=
  bs.set i (Nat.xor (bs.getD i 0) (2 ^ j))

/-- Checksum tag of a concrete toy AEAD instance used to witness the
collaborator-contract hypotheses of the vault theorems: 16 bytes derived from
key, nonce and plaintext sums. -/
def tagOf (key nonce pt : List Nat) : List Nat :=
  key.sum % 256 :: nonce.sum % 256 :: pt.sum % 256 :: List.replicate 13 0

/-- Concrete toy AEAD instance: ciphertext is the plaintext followed by the
16-byte checksum tag; opening recomputes and checks the tag. -/
def toyAEAD : AEAD where
  enc := fun key nonce pt => pt ++ tagOf key nonce pt
  dec := fun key nonce ct =>
    if 16 ≤ ct.length ∧ ct.drop (ct.length - 16) = tagOf key nonce (ct.take (ct.length - 16))
    then some (ct.take (ct.length - 16))
    else none

/-- Concrete 12-byte nonce used in witnesses. -/
def witNonce : List Nat := [0, 1, 2, 3, 4, 5, 6, 7, 8, 9, 10, 11]

/-! ## Hex codec lemmas -/

theorem hexDigitVal_hexDigitChar : ∀ n < 16, hexDigitVal (hexDigitChar n) = some n := by
  decide

theorem hexPairs_flatMap (bs : List Nat) (h : ∀ b ∈ bs, b < 256) :
    hexPairs (bs.flatMap byteToHex) = some bs := by
  induction bs with
  | nil => rfl
  | cons b t ih =>
    have hb : b < 256 := h b (by simp)
    have ht : ∀ x ∈ t, x < 256 := fun x hx => h x (by simp [hx])
    have h1 : hexDigitVal (hexDigitChar (b / 16)) = some (b / 16) :=
      hexDigitVal_hexDigitChar _ (by omega)
    have h2 : hexDigitVal (hexDigitChar (b % 16)) = some (b % 16) :=
      hexDigitVal_hexDigitChar _ (by omega)
    have hbt : 16 * (b / 16) + b % 16 = b := by omega
    have hstep : (b :: t).flatMap byteToHex =
        hexDigitChar (b / 16) :: hexDigitChar (b % 16) :: t.flatMap byteToHex := rfl
    rw [hstep]
    simp only [hexPairs, h1, h2, ih ht, hbt]

theorem hexToBytes_bytesToHex (bs : List Nat) (h : ∀ b ∈ bs, b < 256) :
    hexToBytes (bytesToHex bs) = some bs :=
  hexPairs_flatMap bs h

theorem flatMap_byteToHex_length (bs : List Nat) :
    (bs.flatMap byteToHex).length = 2 * bs.length := by
  induction bs with
  | nil => rfl
  | cons b t ih =>
    simp only [List.flatMap_cons, List.length_append, List.length_cons, ih, byteToHex,
      List.length_nil]
    omega

theorem bytesToHex_length (bs : List Nat) :
    (bytesToHex bs).length = 2 * bs.length :=
  flatMap_byteToHex_length bs

/-! ## UTF-8 codec lemmas -/

theorem char_toNat_valid (c : Char) :
    c.toNat < 55296 ∨ (57343 < c.toNat ∧ c.toNat < 1114112) := by
  have h := c.valid
  simp [UInt32.isValidChar, Nat.isValidChar, Char.toNat] at h ⊢
  exact h

theorem utf8Run_one (b : Nat) (t : List Nat) (h : b < 128) :
    utf8Run none (b :: t) = (utf8Run none t).map (fun cs => Char.ofNat b :: cs) := by
  simp only [utf8Run]
  rw [if_pos h]

theorem utf8Run_two (b1 b2 : Nat) (t : List Nat)
    (h1 : ¬ b1 < 128) (h2 : 194 ≤ b1 ∧ b1 < 224) (h3 : 128 ≤ b2 ∧ b2 < 192)
    (h4 : 128 ≤ (b1 - 192) * 64 + (b2 - 128) ∧
      ((b1 - 192) * 64 + (b2 - 128) < 55296 ∨
        (57344 ≤ (b1 - 192) * 64 + (b2 - 128) ∧ (b1 - 192) * 64 + (b2 - 128) < 1114112))) :
    utf8Run none (b1 :: b2 :: t) =
      (utf8Run none t).map (fun cs => Char.ofNat ((b1 - 192) * 64 + (b2 - 128)) :: cs) := by
  simp only [utf8Run]
  rw [if_neg h1, if_pos h2, if_pos h3]
  simp only [if_true, reduceIte]
  rw [if_pos h4]

theorem utf8Run_three (b1 b2 b3 : Nat) (t : List Nat)
    (h1 : ¬ b1 < 128) (h1b : ¬ (194 ≤ b1 ∧ b1 < 224)) (h2 : 224 ≤ b1 ∧ b1 < 240)
    (h3 : 128 ≤ b2 ∧ b2 < 192) (h4 : 128 ≤ b3 ∧ b3 < 192)
    (h5 : 2048 ≤ ((b1 - 224) * 64 + (b2 - 128)) * 64 + (b3 - 128) ∧
      (((b1 - 224) * 64 + (b2 - 128)) * 64 + (b3 - 128) < 55296 ∨
        (57344 ≤ ((b1 - 224) * 64 + (b2 - 128)) * 64 + (b3 - 128) ∧
          ((b1 - 224) * 64 + (b2 - 128)) * 64 + (b3 - 128) < 1114112))) :
    utf8Run none (b1 :: b2 :: b3 :: t) =
      (utf8Run none t).map
        (fun cs => Char.ofNat (((b1 - 224) * 64 + (b2 - 128)) * 64 + (b3 - 128)) :: cs) := by
  simp only [utf8Run]
  rw [if_neg h1, if_neg h1b, if_pos h2, if_pos h3]
  simp only [if_true, reduceIte]
  rw [if_pos h4, if_pos h5, if_neg (show ¬(2 = 1) by decide)]

theorem utf8Run_four (b1 b2 b3 b4 : Nat) (t : List Nat)
    (h1 : ¬ b1 < 128) (h1b : ¬ (194 ≤ b1 ∧ b1 < 224)) (h1c : ¬ (224 ≤ b1 ∧ b1 < 240))
    (h2 : 240 ≤ b1 ∧ b1 < 245)
    (h3 : 128 ≤ b2 ∧ b2 < 192) (h4 : 128 ≤ b3 ∧ b3 < 192) (h5 : 128 ≤ b4 ∧ b4 < 192)
    (h6 : 65536 ≤ (((b1 - 240) * 64 + (b2 - 128)) * 64 + (b3 - 128)) * 64 + (b4 - 128) ∧
      ((((b1 - 240) * 64 + (b2 - 128)) * 64 + (b3 - 128)) * 64 + (b4 - 128) < 55296 ∨
        (57344 ≤ (((b1 - 240) * 64 + (b2 - 128)) * 64 + (b3 - 128)) * 64 + (b4 - 128) ∧
          (((b1 - 240) * 64 + (b2 - 128)) * 64 + (b3 - 128)) * 64 + (b4 - 128) < 1114112))) :
    utf8Run none (b1 :: b2 :: b3 :: b4 :: t) =
      (utf8Run none t).map
        (fun cs =>
          Char.ofNat ((((b1 - 240) * 64 + (b2 - 128)) * 64 + (b3 - 128)) * 64 + (b4 - 128))
            :: cs) := by
  simp only [utf8Run]
  rw [if_neg h1, if_neg h1b, if_neg h1c, if_pos h2, if_pos h3]
  simp only [if_true, reduceIte]
  rw [if_pos h4, if_pos h5, if_pos h6, if_neg (show ¬(3 = 1) by decide),
    if_neg (show ¬(3 - 1 = 1) by decide), if_pos h5]

theorem utf8Run_encodeChar (c : Char) (t : List Nat) :
    utf8Run none (utf8EncodeChar c ++ t) = (utf8Run none t).map (fun cs => c :: cs) := by
  have hv := char_toNat_valid c
  have hofNat := Char.ofNat_toNat c
  by_cases h1 : c.toNat < 128
  · have he : utf8EncodeChar c = [c.toNat] := by simp [utf8EncodeChar, h1]
    rw [he, List.cons_append, List.nil_append, utf8Run_one _ _ h1, hofNat]
  · by_cases h2 : c.toNat < 2048
    · have he : utf8EncodeChar c = [192 + c.toNat / 64, 128 + c.toNat % 64] := by
        simp [utf8EncodeChar, h1, h2]
      have hrec : (192 + c.toNat / 64 - 192) * 64 + (128 + c.toNat % 64 - 128) = c.toNat := by
        omega
      rw [he, List.cons_append, List.cons_append, List.nil_append,
        utf8Run_two _ _ _ (by omega) (by omega) (by omega) (by rw [hrec]; omega),
        hrec, hofNat]
    · by_cases h3 : c.toNat < 65536
      · have he : utf8EncodeChar c =
            [224 + c.toNat / 4096, 128 + c.toNat / 64 % 64, 128 + c.toNat % 64] := by
          simp [utf8EncodeChar, h1, h2, h3]
        have hrec : ((224 + c.toNat / 4096 - 224) * 64 + (128 + c.toNat / 64 % 64 - 128)) * 64 +
            (128 + c.toNat % 64 - 128) = c.toNat := by
          omega
        rw [he, List.cons_append, List.cons_append, List.cons_append, List.nil_append,
          utf8Run_three _ _ _ _ (by omega) (by omega) (by omega) (by omega) (by omega)
            (by rw [hrec]; omega),
          hrec, hofNat]
      · have h4 : c.toNat < 1114112 := by omega
        have he : utf8EncodeChar c =
            [240 + c.toNat / 262144, 128 + c.toNat / 4096 % 64,
              128 + c.toNat / 64 % 64, 128 + c.toNat % 64] := by
          simp [utf8EncodeChar, h1, h2, h3]
        have hrec : (((240 + c.toNat / 262144 - 240) * 64 + (128 + c.toNat / 4096 % 64 - 128))
            * 64 + (128 + c.toNat / 64 % 64 - 128)) * 64 + (128 + c.toNat % 64 - 128)
            = c.toNat := by
          omega
        rw [he, List.cons_append, List.cons_append, List.cons_append, List.cons_append,
          List.nil_append,
          utf8Run_four _ _ _ _ _ (by omega) (by omega) (by omega) (by omega) (by omega)
            (by omega) (by omega) (by rw [hrec]; omega),
          hrec, hofNat]

theorem utf8Run_flatMap (cs : List Char) :
    utf8Run none (cs.flatMap utf8EncodeChar) = some cs := by
  induction cs with
  | nil => rfl
  | cons c t ih =>
    rw [List.flatMap_cons, utf8Run_encodeChar, ih]
    rfl

theorem utf8Decode_utf8Encode (s : String) : utf8Decode (utf8Encode s) = some s := by
  unfold utf8Decode utf8DecodeList utf8Encode
  rw [utf8Run_flatMap]
  rfl

theorem utf8EncodeChar_length_pos (c : Char) : 1 ≤ (utf8EncodeChar c).length := by
  simp only [utf8EncodeChar]
  by_cases h1 : c.toNat < 128 <;> by_cases h2 : c.toNat < 2048 <;>
    by_cases h3 : c.toNat < 65536 <;> simp [h1, h2, h3]

theorem length_le_flatMap_utf8 (cs : List Char) :
    cs.length ≤ (cs.flatMap utf8EncodeChar).length := by
  induction cs with
  | nil => simp
  | cons c t ih =>
    have h := utf8EncodeChar_length_pos c
    simp only [List.flatMap_cons, List.length_append, List.length_cons]
    omega

theorem length_le_utf8Encode (s : String) : s.length ≤ (utf8Encode s).length :=
  length_le_flatMap_utf8 s.toList

/-! ## Claim theorems: the safe query wrapper -/

/-- C3: for every query and parameter tuple whose execution yields zero rows
or an absent result set, `fetch_one_or_raise` raises the NotFound condition
(a `ValueError`) and never returns a value; when the result is non-empty it
returns the first row. -/
theorem fetch_one_or_raise_spec {ε α : Type} (db : DatabaseManager ε α) (query : String)
    (params : Option (List α)) (error_msg : Option String) :
    ((db.execute_query query params = .ok none ∨
        db.execute_query query params = .ok (some [])) →
      DBUtils.fetch_one_or_raise db query params error_msg =
        .error (.valueError (pyOrStr error_msg ("No rows returned for query: " ++ query)))) ∧
    (∀ row rest, db.execute_query query params = .ok (some (row :: rest)) →
      DBUtils.fetch_one_or_raise db query params error_msg = .ok row) := by
  constructor
  · rintro (h | h) <;> unfold DBUtils.fetch_one_or_raise <;> rw [h]
  · intro row rest h
    unfold DBUtils.fetch_one_or_raise
    rw [h]

theorem fetch_one_or_raise_spec_witness :
    (dbEmpty.execute_query "SELECT 1" none = .ok none ∨
      dbEmpty.execute_query "SELECT 1" none = .ok (some [])) ∧
    DBUtils.fetch_one_or_raise dbEmpty "SELECT 1" none none =
      .error (.valueError (pyOrStr none ("No rows returned for query: " ++ "SELECT 1"))) ∧
    dbRows.execute_query "SELECT 1" none = .ok (some [[10, 20], [30]]) ∧
    DBUtils.fetch_one_or_raise dbRows "SELECT 1" none none = .ok [10, 20] :=
  ⟨Or.inr rfl,
   (fetch_one_or_raise_spec dbEmpty "SELECT 1" none none).1 (Or.inr rfl),
   rfl,
   (fetch_one_or_raise_spec dbRows "SELECT 1" none none).2 [10, 20] [[30]] rfl⟩

/-- C4: `safe_execute` returns `true` iff the underlying executor does not
raise; for every exception the executor may raise it returns `false`, and
its return type is `Bool`, so it never re-raises from this entry point. -/
theorem safe_execute_spec {ε α : Type} (db : DatabaseManager ε α) (query : String)
    (params : Option (List α)) :
    (DBUtils.safe_execute db query params = true ↔
      ∃ r, db.execute_query query params = .ok r) ∧
    (∀ e, db.execute_query query params = .error e →
      DBUtils.safe_execute db query params = false) := by
  constructor
  · constructor
    · intro h
      unfold DBUtils.safe_execute at h
      cases hq : db.execute_query query params with
      | ok r => exact ⟨r, rfl⟩
      | error e => rw [hq] at h; simp at h
    · rintro ⟨r, hr⟩
      unfold DBUtils.safe_execute
      rw [hr]
  · intro e he
    unfold DBUtils.safe_execute
    rw [he]

theorem safe_execute_spec_witness :
    DBUtils.safe_execute dbRows "UPDATE t SET x = 1" none = true ∧
    dbBoom.execute_query "UPDATE t SET x = 1" none = .error () ∧
    DBUtils.safe_execute dbBoom "UPDATE t SET x = 1" none = false :=
  ⟨(safe_execute_spec dbRows "UPDATE t SET x = 1" none).1.mpr ⟨some [[10, 20], [30]], rfl⟩,
   rfl,
   (safe_execute_spec dbBoom "UPDATE t SET x = 1" none).2 () rfl⟩

/-- C5: `fetch_all_safe` returns the executor's row sequence unchanged when a
result set is present (including the empty result set, which comes back as
the empty sequence) and an empty sequence when the result is absent; absence
of rows never raises. -/
theorem fetch_all_safe_spec {ε α : Type} (db : DatabaseManager ε α) (query : String)
    (params : Option (List α)) :
    (∀ l, db.execute_query query params = .ok (some l) →
      DBUtils.fetch_all_safe db query params = .ok l) ∧
    (db.execute_query query params = .ok none →
      DBUtils.fetch_all_safe db query params = .ok []) := by
  constructor
  · intro l h
    unfold DBUtils.fetch_all_safe
    rw [h]
    cases l with
    | nil => rfl
    | cons a t => rfl
  · intro h
    unfold DBUtils.fetch_all_safe
    rw [h]
    rfl

theorem fetch_all_safe_spec_witness :
    dbRows.execute_query "SELECT 2" none = .ok (some [[10, 20], [30]]) ∧
    DBUtils.fetch_all_safe dbRows "SELECT 2" none = .ok [[10, 20], [30]] ∧
    dbEmpty.execute_query "SELECT 2" none = .ok (some []) ∧
    DBUtils.fetch_all_safe dbEmpty "SELECT 2" none = .ok [] ∧
    dbAbsent.execute_query "DELETE FROM t" none = .ok none ∧
    DBUtils.fetch_all_safe dbAbsent "DELETE FROM t" none = .ok [] :=
  ⟨rfl,
   (fetch_all_safe_spec dbRows "SELECT 2" none).1 [[10, 20], [30]] rfl,
   rfl,
   (fetch_all_safe_spec dbEmpty "SELECT 2" none).1 [] rfl,
   rfl,
   (fetch_all_safe_spec dbAbsent "DELETE FROM t" none).2 rfl⟩

/-- C6: when the first returned row has at least `c + 1` columns,
`fetch_value_or_raise` with column index `c` returns exactly the element
`fetch_one_or_raise(...)[c]`; when `c` is at least the row width it fails
with the out-of-range condition (IndexError), propagated, not masked. -/
theorem fetch_value_or_raise_spec {ε α : Type} (db : DatabaseManager ε α) (query : String)
    (params : Option (List α)) (error_msg : Option String) (row : List α) (c : Nat)
    (hrow : DBUtils.fetch_one_or_raise db query params error_msg = .ok row) :
    (∀ v, row.get? c = some v →
      DBUtils.fetch_value_or_raise db query params (c : Int) error_msg = .ok v) ∧
    (row.length ≤ c →
      DBUtils.fetch_value_or_raise db query params (c : Int) error_msg =
        .error .indexError) := by
  constructor
  · intro v hv
    simp only [DBUtils.fetch_value_or_raise, hrow]
    simp only [pyIndex]
    rw [if_pos (show (0 : Int) ≤ (c : Int) by omega),
      show ((c : Int)).toNat = c by omega, hv]
  · intro hlen
    simp only [DBUtils.fetch_value_or_raise, hrow]
    simp only [pyIndex]
    rw [if_pos (show (0 : Int) ≤ (c : Int) by omega),
      show ((c : Int)).toNat = c by omega, List.get?_eq_none.mpr hlen]

theorem fetch_value_or_raise_spec_witness :
    DBUtils.fetch_one_or_raise dbRows "SELECT 3" none none = .ok [10, 20] ∧
    ([10, 20] : List Nat).get? 1 = some 20 ∧
    DBUtils.fetch_value_or_raise dbRows "SELECT 3" none ((1 : Nat) : Int) none = .ok 20 ∧
    ([10, 20] : List Nat).length ≤ 5 ∧
    DBUtils.fetch_value_or_raise dbRows "SELECT 3" none ((5 : Nat) : Int) none =
      .error .indexError :=
  ⟨rfl, rfl,
   (fetch_value_or_raise_spec dbRows "SELECT 3" none none [10, 20] 1 rfl).1 20 rfl,
   by decide,
   (fetch_value_or_raise_spec dbRows "SELECT 3" none none [10, 20] 5 rfl).2 (by decide)⟩

/-- C8 (counterexample): with an empty result set and the custom error
message "custom message", `fetch_one_or_raise` raises a ValueError carrying
only that custom message; the offending query text "SELECT 1" is not
contained in it, so the NotFound condition does not carry the query text for
every choice of the optional custom error message. -/
theorem fetch_one_notfound_message_counterexample :
    DBUtils.fetch_one_or_raise dbEmpty "SELECT 1" none (some "custom message") =
      .error (.valueError "custom message") ∧
    ¬ List.IsInfix ("SELECT 1".toList) ("custom message".toList) := by
  constructor
  · rfl
  · decide

/-- C8 (amended): whenever `fetch_one_or_raise` fails with NotFound, the
ValueError carries a human-readable message; the message contains the
offending query text when no custom error message is supplied (the default
diagnostic), while a non-empty custom error message replaces the default
entirely, so the condition then carries exactly the custom message. -/
theorem fetch_one_notfound_message_amended {ε α : Type} (db : DatabaseManager ε α)
    (query : String) (params : Option (List α))
    (h : db.execute_query query params = .ok none ∨
      db.execute_query query params = .ok (some [])) :
    (DBUtils.fetch_one_or_raise db query params none =
        .error (.valueError ("No rows returned for query: " ++ query)) ∧
      List.IsInfix query.toList (("No rows returned for query: " ++ query).toList)) ∧
    (∀ m : String, m ≠ "" →
      DBUtils.fetch_one_or_raise db query params (some m) = .error (.valueError m)) := by
  refine ⟨⟨?_, ?_⟩, ?_⟩
  · rcases h with h | h <;> unfold DBUtils.fetch_one_or_raise <;> rw [h] <;> rfl
  · have hsplit : ("No rows returned for query: " ++ query).toList =
        "No rows returned for query: ".toList ++ query.toList := rfl
    rw [hsplit]
    exact (List.suffix_append _ _).isInfix
  · intro m hm
    rcases h with h | h <;> unfold DBUtils.fetch_one_or_raise <;> rw [h] <;>
      simp [pyOrStr, hm]

theorem fetch_one_notfound_message_amended_witness :
    (dbEmpty.execute_query "SELECT 9" none = .ok none ∨
      dbEmpty.execute_query "SELECT 9" none = .ok (some [])) ∧
    ((DBUtils.fetch_one_or_raise dbEmpty "SELECT 9" none none =
        .error (.valueError ("No rows returned for query: " ++ "SELECT 9")) ∧
      List.IsInfix ("SELECT 9".toList)
        (("No rows returned for query: " ++ "SELECT 9").toList)) ∧
    (∀ m : String, m ≠ "" →
      DBUtils.fetch_one_or_raise dbEmpty "SELECT 9" none (some m) =
        .error (.valueError m))) :=
  ⟨Or.inr rfl, fetch_one_notfound_message_amended dbEmpty "SELECT 9" none (Or.inr rfl)⟩

/-- C9: negative column indices are accepted, not rejected: when the first
returned row has width `w` and `-w <= c <= -1`, `fetch_value_or_raise`
returns the element at position `w + c` of that row instead of failing with
the out-of-range condition. -/
theorem fetch_value_or_raise_negative_index {ε α : Type} (db : DatabaseManager ε α)
    (query : String) (params : Option (List α)) (error_msg : Option String)
    (row : List α) (c : Int)
    (hrow : DBUtils.fetch_one_or_raise db query params error_msg = .ok row)
    (hlo : -(row.length : Int) ≤ c) (hhi : c ≤ -1) :
    ∀ v, row.get? ((row.length : Int) + c).toNat = some v →
      DBUtils.fetch_value_or_raise db query params c error_msg = .ok v := by
  intro v hv
  simp only [DBUtils.fetch_value_or_raise, hrow]
  simp only [pyIndex]
  rw [if_neg (show ¬ (0 : Int) ≤ c by omega),
    if_pos (show -c ≤ (row.length : Int) by omega),
    show row.length - (-c).toNat = ((row.length : Int) + c).toNat by omega, hv]

theorem fetch_value_or_raise_negative_index_witness :
    DBUtils.fetch_one_or_raise dbRows "SELECT 4" none none = .ok [10, 20] ∧
    (-((([10, 20] : List Nat).length : Int)) ≤ -1 ∧ (-1 : Int) ≤ -1) ∧
    ([10, 20] : List Nat).get? (((([10, 20] : List Nat).length : Int)) + -1).toNat =
      some 20 ∧
    DBUtils.fetch_value_or_raise dbRows "SELECT 4" none (-1) none = .ok 20 :=
  ⟨rfl, ⟨by decide, by decide⟩, by decide,
   fetch_value_or_raise_negative_index dbRows "SELECT 4" none none [10, 20] (-1) rfl
     (by decide) (by decide) 20 (by decide)⟩

/-! ## Claim theorems: the vault encryption helpers -/

/-- C1: round-trip law: for every plaintext string `p`, decrypting the
`(ciphertextHex, nonceHex)` pair produced by `_encrypt_data p` with the same
cipher instance returns exactly `p`. The AEAD collaborator is abstract; the
hypotheses are the spec's collaborator contract at this instance: its output
bytes are bytes, and opening what was sealed under the same key and nonce
returns the sealed plaintext. -/
theorem encrypt_decrypt_roundtrip (A : AEAD) (key nonce : List Nat) (p : String)
    (hnb : ∀ b ∈ nonce, b < 256)
    (hcb : ∀ b ∈ A.enc key nonce (utf8Encode p), b < 256)
    (hopen : A.dec key nonce (A.enc key nonce (utf8Encode p)) = some (utf8Encode p)) :
    decryptData A key (encryptData A key nonce p).1 (encryptData A key nonce p).2 =
      .ok p := by
  have hc := hexToBytes_bytesToHex _ hcb
  have hn := hexToBytes_bytesToHex _ hnb
  simp only [encryptData, decryptData, hc, hn, hopen, utf8Decode_utf8Encode]

theorem encrypt_decrypt_roundtrip_witness :
    (∀ b ∈ witNonce, b < 256) ∧
    (∀ b ∈ toyAEAD.enc [1] witNonce (utf8Encode "ab"), b < 256) ∧
    toyAEAD.dec [1] witNonce (toyAEAD.enc [1] witNonce (utf8Encode "ab")) =
      some (utf8Encode "ab") ∧
    decryptData toyAEAD [1] (encryptData toyAEAD [1] witNonce "ab").1
      (encryptData toyAEAD [1] witNonce "ab").2 = .ok "ab" :=
  ⟨by decide, by decide, by decide,
   encrypt_decrypt_roundtrip toyAEAD [1] witNonce "ab" (by decide) (by decide) (by decide)⟩

/-- C2: `_decrypt_data` fails with the AuthenticationFailure condition and
returns no plaintext in each of the three cases of the spec, given the
spec's collaborator contract that the abstract AEAD primitive rejects the
corresponding opened input: (a) any single-bit mutation of the ciphertext
bytes produced by encryption, (b) decryption with a nonce different from the
one produced at encryption time, (c) decryption by an instance keyed
differently from the one that produced the ciphertext. -/
theorem decrypt_authentication_failure (A : AEAD) (key key2 nonce nonce2 : List Nat)
    (p : String) (i j : Nat) :
    ((i < (A.enc key nonce (utf8Encode p)).length → j < 8 →
      (∀ b ∈ flipBit (A.enc key nonce (utf8Encode p)) i j, b < 256) →
      (∀ b ∈ nonce, b < 256) →
      A.dec key nonce (flipBit (A.enc key nonce (utf8Encode p)) i j) = none →
      decryptData A key (bytesToHex (flipBit (A.enc key nonce (utf8Encode p)) i j))
        (bytesToHex nonce) = .error .authenticationFailure)) ∧
    ((∀ b ∈ A.enc key nonce (utf8Encode p), b < 256) → (∀ b ∈ nonce2, b < 256) →
      nonce2 ≠ nonce →
      A.dec key nonce2 (A.enc key nonce (utf8Encode p)) = none →
      decryptData A key (bytesToHex (A.enc key nonce (utf8Encode p)))
        (bytesToHex nonce2) = .error .authenticationFailure) ∧
    ((∀ b ∈ A.enc key nonce (utf8Encode p), b < 256) → (∀ b ∈ nonce, b < 256) →
      key2 ≠ key →
      A.dec key2 nonce (A.enc key nonce (utf8Encode p)) = none →
      decryptData A key2 (bytesToHex (A.enc key nonce (utf8Encode p)))
        (bytesToHex nonce) = .error .authenticationFailure) := by
  refine ⟨?_, ?_, ?_⟩
  · intro _ _ hcb hnb hdec
    simp only [decryptData, hexToBytes_bytesToHex _ hcb, hexToBytes_bytesToHex _ hnb, hdec]
  · intro hcb hnb _ hdec
    simp only [decryptData, hexToBytes_bytesToHex _ hcb, hexToBytes_bytesToHex _ hnb, hdec]
  · intro hcb hnb _ hdec
    simp only [decryptData, hexToBytes_bytesToHex _ hcb, hexToBytes_bytesToHex _ hnb, hdec]

theorem decrypt_authentication_failure_witness :
    (0 < (toyAEAD.enc [1] witNonce (utf8Encode "ab")).length ∧ (0 : Nat) < 8 ∧
      (∀ b ∈ flipBit (toyAEAD.enc [1] witNonce (utf8Encode "ab")) 0 0, b < 256) ∧
      (∀ b ∈ witNonce, b < 256) ∧
      toyAEAD.dec [1] witNonce (flipBit (toyAEAD.enc [1] witNonce (utf8Encode "ab")) 0 0) =
        none ∧
      decryptData toyAEAD [1]
        (bytesToHex (flipBit (toyAEAD.enc [1] witNonce (utf8Encode "ab")) 0 0))
        (bytesToHex witNonce) = .error .authenticationFailure) ∧
    (List.replicate 12 1 ≠ witNonce ∧
      toyAEAD.dec [1] (List.replicate 12 1) (toyAEAD.enc [1] witNonce (utf8Encode "ab")) =
        none ∧
      decryptData toyAEAD [1] (bytesToHex (toyAEAD.enc [1] witNonce (utf8Encode "ab")))
        (bytesToHex (List.replicate 12 1)) = .error .authenticationFailure) ∧
    (([2] : List Nat) ≠ [1] ∧
      toyAEAD.dec [2] witNonce (toyAEAD.enc [1] witNonce (utf8Encode "ab")) = none ∧
      decryptData toyAEAD [2] (bytesToHex (toyAEAD.enc [1] witNonce (utf8Encode "ab")))
        (bytesToHex witNonce) = .error .authenticationFailure) :=
  ⟨⟨by decide, by decide, by decide, by decide, by decide,
    (decrypt_authentication_failure toyAEAD [1] [2] witNonce (List.replicate 12 1) "ab" 0 0).1
      (by decide) (by decide) (by decide) (by decide) (by decide)⟩,
   ⟨by decide, by decide,
    (decrypt_authentication_failure toyAEAD [1] [2] witNonce (List.replicate 12 1) "ab" 0 0).2.1
      (by decide) (by decide) (by decide) (by decide)⟩,
   ⟨by decide, by decide,
    (decrypt_authentication_failure toyAEAD [1] [2] witNonce (List.replicate 12 1) "ab" 0 0).2.2
      (by decide) (by decide) (by decide) (by decide)⟩⟩

/-- C7: non-identity law: for every non-empty plaintext `p` (given the
collaborator contract that the sealed output is 16 bytes — the
authentication tag — longer than the plaintext bytes), the ciphertextHex
produced by `_encrypt_data p` is not equal to `p` and is strictly longer
than `p`. -/
theorem encrypt_non_identity (A : AEAD) (key nonce : List Nat) (p : String)
    (_hp : p ≠ "")
    (hlen : (A.enc key nonce (utf8Encode p)).length = (utf8Encode p).length + 16) :
    (encryptData A key nonce p).1 ≠ p ∧
    p.length < (encryptData A key nonce p).1.length := by
  have hL : (encryptData A key nonce p).1.length = 2 * ((utf8Encode p).length + 16) := by
    show (bytesToHex (A.enc key nonce (utf8Encode p))).length = _
    rw [bytesToHex_length, hlen]
  have hpl : p.length ≤ (utf8Encode p).length := length_le_utf8Encode p
  constructor
  · intro heq
    have hplen : p.length = (encryptData A key nonce p).1.length := by rw [heq]
    omega
  · omega

theorem encrypt_non_identity_witness :
    ("ab" : String) ≠ "" ∧
    (toyAEAD.enc [1] witNonce (utf8Encode "ab")).length = (utf8Encode "ab").length + 16 ∧
    ((encryptData toyAEAD [1] witNonce "ab").1 ≠ "ab" ∧
      ("ab" : String).length < (encryptData toyAEAD [1] witNonce "ab").1.length) :=
  ⟨by decide, by decide,
   encrypt_non_identity toyAEAD [1] witNonce "ab" (by decide) (by decide)⟩

/-- C10: encrypt output shape: for every plaintext `p`, including the empty
string, `_encrypt_data p` (with its 12-byte `os.urandom` nonce and the
16-byte-tag collaborator contract) yields a nonceHex of exactly 24 hex
characters and a ciphertextHex of exactly `2 * (byteLength p + 16)` hex
characters; encrypting the empty string yields a 32-character ciphertextHex,
the bare authentication tag. -/
theorem encrypt_output_shape (A : AEAD) (key nonce : List Nat) (p : String)
    (hn : nonce.length = 12)
    (hlen : (A.enc key nonce (utf8Encode p)).length = (utf8Encode p).length + 16) :
    (encryptData A key nonce p).2.length = 24 ∧
    (encryptData A key nonce p).1.length = 2 * ((utf8Encode p).length + 16) ∧
    (p = "" → (encryptData A key nonce p).1.length = 32) := by
  refine ⟨?_, ?_, ?_⟩
  · show (bytesToHex nonce).length = 24
    rw [bytesToHex_length, hn]
  · show (bytesToHex (A.enc key nonce (utf8Encode p))).length = _
    rw [bytesToHex_length, hlen]
  · intro hp
    show (bytesToHex (A.enc key nonce (utf8Encode p))).length = 32
    rw [bytesToHex_length, hlen, hp]
    rfl

theorem encrypt_output_shape_witness :
    witNonce.length = 12 ∧
    (toyAEAD.enc [1] witNonce (utf8Encode "")).length = (utf8Encode "").length + 16 ∧
    ((encryptData toyAEAD [1] witNonce "").2.length = 24 ∧
      (encryptData toyAEAD [1] witNonce "").1.length = 2 * ((utf8Encode "").length + 16) ∧
      (("" : String) = "" → (encryptData toyAEAD [1] witNonce "").1.length = 32)) :=
  ⟨by decide, by decide,
   encrypt_output_shape toyAEAD [1] witNonce "" (by decide) (by decide)⟩
